import Mathlib

/-!
Verification development for the ClawDaemon task daemon.

The Go sources are shallowly embedded: the SQLite-backed task store becomes
an explicit `Store` value, each queue operation becomes a pure state
transition, the worker execution loop becomes a fold over the streamed
output lines, and the token-budget governor and context injector become
pure functions.  Machine integers are modelled as `Int`/`Nat` (token
counts and usage sums are non-negative in every reachable store: the
schema defaults are 0 and the estimators only produce non-negative
values).  Byte-level string operations of the Go code are modelled on
character lists; all keyword sets and section labels involved are ASCII,
where Go's `strings.ToLower` agrees with `Char.toLower`.
-/

namespace ClawDaemon

/-- A row of the `tasks` table (struct `db.Task`).  `sql.NullInt64`
columns become `Option Int`; SQLite timestamps become `Nat` instants. -/
structure Task where
  id : Nat
  title : String
  prompt : String
  projectID : Option Int
  workerID : Option Int
  priority : Int
  status : String
  output : String
  diff : String
  checkpointData : String
  progress : Int
  inputTokens : Int
  outputTokens : Int
  templateID : Option Int
  errorMessage : String
  createdAt : Nat
  updatedAt : Nat
deriving Repr, DecidableEq

/-- The persistent store backing `queue.Queue`: the `tasks` table rows in
insertion order plus the AUTOINCREMENT counter for the next row id. -/
structure Store where
  tasks : List Task
  nextId : Nat
deriving Repr, DecidableEq

/-- The caller-supplied fields of `queue.Enqueue`'s INSERT: exactly the
columns the statement names; every other column takes its DDL default. -/
structure TaskInput where
  title : String
  prompt : String
  projectID : Option Int
  workerID : Option Int
  priority : Int
  templateID : Option Int
deriving Repr, DecidableEq

/-- `queue.Enqueue`: INSERT INTO tasks (title, prompt, project_id,
worker_id, priority, status, template_id, created_at, updated_at)
VALUES (..., 'pending', ...).  Returns the new store and the inserted
row id (`LastInsertId`). -/
def enqueue (s : Store) (t : TaskInput) (now : Nat) : Store × Nat :=
  let task : Task :=
    { id := s.nextId
      title := t.title
      prompt := t.prompt
      projectID := t.projectID
      workerID := t.workerID
      priority := t.priority
      status := "pending"
      output := ""
      diff := ""
      checkpointData := ""
      progress := 0
      inputTokens := 0
      outputTokens := 0
      templateID := t.templateID
      errorMessage := ""
      createdAt := now
      updatedAt := now }
  ({ tasks := s.tasks ++ [task], nextId := s.nextId + 1 }, s.nextId)

/-- `queue.EnqueueRaw`: builds a `db.Task` from raw fields (setting the
optional project/worker references when the pointers are non-nil) and
calls `Enqueue`. -/
def enqueueRaw (s : Store) (title prompt : String) (projectID workerID : Option Int)
    (priority : Int) (now : Nat) : Store :=
  (enqueue s { title, prompt, projectID, workerID, priority, templateID := none } now).1

/-- The ORDER BY priority ASC, created_at ASC comparison used by
`queue.Dequeue`'s SELECT. -/
def keyLtb (a b : Task) : Bool :=
  a.priority < b.priority || (a.priority == b.priority && a.createdAt < b.createdAt)

/-- The row `SELECT ... ORDER BY priority ASC, created_at ASC LIMIT 1`
returns: the minimum under `keyLtb`, earliest-inserted row winning ties. -/
def minByKey : List Task → Option Task
  | [] => none
  | t :: ts =>
    match minByKey ts with
    | none => some t
    | some b => if keyLtb b t then some b else some t

/-- The `WHERE status='pending'` selection composed with the ordered
LIMIT 1: the single pending task `queue.Dequeue` claims. -/
def selectPendingMin (ts : List Task) : Option Task :=
  minByKey (ts.filter fun t => t.status == "pending")

/-- `UPDATE tasks SET ... WHERE id=?`: applies `f` to every row whose id
matches (the queue's UPDATE statements all have this shape). -/
def updateWhere (ts : List Task) (taskID : Nat) (f : Task → Task) : List Task :=
  ts.map fun u => if u.id == taskID then f u else u

/-- How Go's `database/sql` reports the outcome of `QueryRow(...).Scan`:
an empty result is `ErrNoRows`, any other failure is a driver error. -/
inductive SQLError where
  | errNoRows
  | failure (msg : String)
deriving Repr, DecidableEq

/-- The outcome of `queue.Dequeue`'s SELECT against a healthy store:
`ErrNoRows` when no pending task exists, otherwise the minimal row. -/
def selectPendingRow (ts : List Task) : Except SQLError Task :=
  match selectPendingMin ts with
  | none => .error .errNoRows
  | some t => .ok t

/-- The body of `queue.Dequeue` from the Scan onward, parameterised by
the Scan outcome.  The Go code treats ANY Scan error as "queue is empty"
(`if err != nil { tx.Rollback(); return nil, nil }`), then runs
`UPDATE tasks SET status='running', worker_id=?, updated_at=? WHERE id=?`
inside the same transaction and returns the scanned task with
`Status = "running"` and `WorkerID` set to the claiming worker. -/
def dequeueFrom (sel : Except SQLError Task) (s : Store) (w : Int) (now : Nat) :
    Except String (Option Task × Store) :=
  match sel with
  | .error _ => .ok (none, s)
  | .ok t =>
      .ok (some { t with status := "running", workerID := some w },
           { s with tasks := updateWhere s.tasks t.id (fun u => { u with status := "running", workerID := some w, updatedAt := now }) })

/-- `queue.Dequeue` on a healthy store: one atomic transaction selecting
the minimal pending task and transitioning it to running. -/
def dequeue (s : Store) (w : Int) (now : Nat) : Option Task × Store :=
  match dequeueFrom (selectPendingRow s.tasks) s w now with
  | .ok r => r
  | .error _ => (none, s)

/-- `queue.SaveCheckpoint`: UPDATE tasks SET checkpoint_data=?,
progress=?, updated_at=? WHERE id=?. -/
def saveCheckpoint (s : Store) (taskID : Nat) (output : String) (progress : Int) (now : Nat) :
    Store :=
  { s with tasks := updateWhere s.tasks taskID (fun u => { u with checkpointData := output, progress := progress, updatedAt := now }) }

/-- `queue.GetCheckpoint`: SELECT checkpoint_data FROM tasks WHERE id=?. -/
def getCheckpoint (s : Store) (taskID : Nat) : Option String :=
  (s.tasks.find? fun u => u.id == taskID).map Task.checkpointData

/-- `queue.MarkDone`: terminal success transition, progress set to 100. -/
def markDone (s : Store) (taskID : Nat) (output diff : String)
    (inputTokens outputTokens : Int) (now : Nat) : Store :=
  { s with tasks := updateWhere s.tasks taskID (fun u => { u with status := "done", output := output, diff := diff, inputTokens := inputTokens, outputTokens := outputTokens, progress := 100, updatedAt := now }) }

/-- `queue.MarkFailed`: terminal failure transition with the error text. -/
def markFailed (s : Store) (taskID : Nat) (errMsg : String) (now : Nat) : Store :=
  { s with tasks := updateWhere s.tasks taskID (fun u => { u with status := "failed", errorMessage := errMsg, updatedAt := now }) }

/-- `queue.UpdateStatus`: UPDATE tasks SET status=?, updated_at=? WHERE id=?. -/
def updateStatus (s : Store) (taskID : Nat) (status : String) (now : Nat) : Store :=
  { s with tasks := updateWhere s.tasks taskID (fun u => { u with status := status, updatedAt := now }) }

/-- `queue.GetTask`: SELECT ... FROM tasks WHERE id=? (first matching row). -/
def getTask (s : Store) (taskID : Nat) : Option Task :=
  s.tasks.find? fun u => u.id == taskID

/-- Test fixture: a task row with the given id, priority, creation time,
status and worker reference; every other column at its DDL default. -/
def sampleTask (id : Nat) (priority : Int) (createdAt : Nat) (status : String)
    (workerID : Option Int) : Task :=
  { id, title := "", prompt := "", projectID := none, workerID, priority, status,
    output := "", diff := "", checkpointData := "", progress := 0, inputTokens := 0,
    outputTokens := 0, templateID := none, errorMessage := "", createdAt,
    updatedAt := createdAt }

theorem keyLtb_iff (a b : Task) : keyLtb a b = true ↔
    (a.priority < b.priority ∨ (a.priority = b.priority ∧ a.createdAt < b.createdAt)) := by
  simp [keyLtb]

theorem keyLtb_false_iff (a b : Task) : keyLtb a b = false ↔
    ¬ (a.priority < b.priority ∨ (a.priority = b.priority ∧ a.createdAt < b.createdAt)) := by
  rw [← keyLtb_iff, Bool.eq_false_iff, ne_eq]

theorem keyLtb_irrefl (a : Task) : keyLtb a a = false := by
  rw [keyLtb_false_iff]; omega

theorem keyLtb_asymm {a b : Task} (h : keyLtb a b = true) : keyLtb b a = false := by
  rw [keyLtb_iff] at h
  rw [keyLtb_false_iff]
  omega

theorem keyLtb_notlt_trans {a b c : Task} (h1 : keyLtb a b = false) (h2 : keyLtb b c = false) :
    keyLtb a c = false := by
  rw [keyLtb_false_iff] at *
  omega

theorem minByKey_eq_none : ∀ {ts : List Task}, minByKey ts = none → ts = [] := by
  intro ts h
  cases ts with
  | nil => rfl
  | cons x rest =>
    exfalso
    simp only [minByKey] at h
    cases hmr : minByKey rest <;> simp only [hmr] at h
    · exact Option.noConfusion h
    · split at h <;> exact Option.noConfusion h

theorem minByKey_mem : ∀ {ts : List Task} {t : Task}, minByKey ts = some t → t ∈ ts := by
  intro ts
  induction ts with
  | nil => intro t h; simp [minByKey] at h
  | cons x rest ih =>
    intro t h
    simp only [minByKey] at h
    cases hmr : minByKey rest <;> simp only [hmr] at h
    · exact (Option.some_injective _ h) ▸ List.mem_cons_self x rest
    · split at h
      · exact List.mem_cons_of_mem x (ih (hmr.trans (congrArg some (Option.some_injective _ h))))
      · exact (Option.some_injective _ h) ▸ List.mem_cons_self x rest

theorem minByKey_min : ∀ {ts : List Task} {t : Task}, minByKey ts = some t →
    ∀ u ∈ ts, keyLtb u t = false := by
  intro ts
  induction ts with
  | nil => intro t h; simp [minByKey] at h
  | cons x rest ih =>
    intro t h u hu
    simp only [minByKey] at h
    cases hmr : minByKey rest <;> simp only [hmr] at h
    · have hx : t = x := (Option.some_injective _ h).symm
      subst hx
      have : rest = [] := minByKey_eq_none hmr
      subst this
      rcases List.mem_cons.mp hu with rfl | hmem
      · exact keyLtb_irrefl u
      · simp at hmem
    · split at h
      · rename_i hlt
        have hb := (Option.some_injective _ h).symm
        subst hb
        rcases List.mem_cons.mp hu with rfl | hmem
        · exact keyLtb_asymm hlt
        · exact ih hmr u hmem
      · rename_i hlt
        have hx : t = x := (Option.some_injective _ h).symm
        subst hx
        rcases List.mem_cons.mp hu with rfl | hmem
        · exact keyLtb_irrefl u
        · exact keyLtb_notlt_trans (ih hmr u hmem) (Bool.eq_false_iff.mpr hlt)

theorem selectPendingMin_mem {ts : List Task} {t : Task} (h : selectPendingMin ts = some t) :
    t ∈ ts ∧ t.status = "pending" := by
  unfold selectPendingMin at h
  have hm := minByKey_mem h
  have := List.mem_filter.mp hm
  exact ⟨this.1, by simpa using this.2⟩

theorem selectPendingMin_min {ts : List Task} {t : Task} (h : selectPendingMin ts = some t) :
    ∀ u ∈ ts, u.status = "pending" → keyLtb u t = false := by
  intro u hu hpend
  exact minByKey_min h u (List.mem_filter.mpr ⟨hu, by simpa using hpend⟩)

theorem dequeue_some_inv {s : Store} {w : Int} {now : Nat} {t : Task} {s' : Store}
    (h : dequeue s w now = (some t, s')) :
    ∃ t0, selectPendingMin s.tasks = some t0 ∧
      t = { t0 with status := "running", workerID := some w } ∧
      s'.tasks = updateWhere s.tasks t0.id
        (fun u => { u with status := "running", workerID := some w, updatedAt := now }) := by
  unfold dequeue dequeueFrom selectPendingRow at h
  cases hsel : selectPendingMin s.tasks with
  | none => rw [hsel] at h; simp at h
  | some t0 =>
    rw [hsel] at h
    simp only [Prod.mk.injEq, Option.some.injEq] at h
    exact ⟨t0, rfl, h.1.symm, by rw [← h.2]⟩

theorem dequeue_none_inv {s : Store} {w : Int} {now : Nat} {s' : Store}
    (h : dequeue s w now = (none, s')) : s' = s := by
  unfold dequeue dequeueFrom selectPendingRow at h
  cases hsel : selectPendingMin s.tasks with
  | none => rw [hsel] at h; simp at h; exact h.symm
  | some t0 => rw [hsel] at h; simp at h

/-- C1: two Dequeue calls never claim the same task.  Concurrency is
modelled by the claim's own atomicity statement: the Go code runs the
SELECT and the status UPDATE inside one SQL transaction, so an
interleaving of two concurrent calls is two sequential atomic `dequeue`
steps, and whichever runs second can never return the task id the first
claimed, because that row is already `running`. -/
theorem dequeue_no_double_claim (s : Store) (w1 w2 : Int) (n1 n2 : Nat)
    (t1 t2 : Task) (s1 s2 : Store)
    (h1 : dequeue s w1 n1 = (some t1, s1))
    (h2 : dequeue s1 w2 n2 = (some t2, s2)) :
    t1.id ≠ t2.id := by
  obtain ⟨a0, hsel1, ht1, hs1⟩ := dequeue_some_inv h1
  obtain ⟨b0, hsel2, ht2, _⟩ := dequeue_some_inv h2
  have hb0 := selectPendingMin_mem hsel2
  have hb0mem : b0 ∈ s1.tasks := hb0.1
  have hb0pend : b0.status = "pending" := hb0.2
  rw [hs1] at hb0mem
  unfold updateWhere at hb0mem
  obtain ⟨v, _, hv⟩ := List.mem_map.mp hb0mem
  intro heq
  have ht1id : t1.id = a0.id := by rw [ht1]
  have ht2id : t2.id = b0.id := by rw [ht2]
  by_cases hid : v.id == a0.id
  · rw [if_pos hid] at hv
    have : b0.status = "running" := by rw [← hv]
    rw [hb0pend] at this
    exact absurd this (by decide)
  · rw [if_neg hid] at hv
    have : v.id ≠ a0.id := by simpa using hid
    apply this
    rw [← hv] at ht2id
    omega

/-- C1 witness: a concrete store with two pending tasks; the two
sequential atomic Dequeue calls claim different task ids. -/
theorem dequeue_no_double_claim_witness :
    dequeue ⟨[sampleTask 1 5 0 "pending" none, sampleTask 2 5 1 "pending" none], 3⟩ 1 7 =
      (some (sampleTask 1 5 0 "running" (some 1)),
       ⟨[{ sampleTask 1 5 0 "running" (some 1) with updatedAt := 7 },
         sampleTask 2 5 1 "pending" none], 3⟩) ∧
    (1 : Nat) ≠ 2 := by
  have h1 : dequeue (⟨[sampleTask 1 5 0 "pending" none, sampleTask 2 5 1 "pending" none],
      3⟩ : Store) 1 7 =
      (some (sampleTask 1 5 0 "running" (some 1)),
       ⟨[{ sampleTask 1 5 0 "running" (some 1) with updatedAt := 7 },
         sampleTask 2 5 1 "pending" none], 3⟩) := by decide
  refine ⟨h1, ?_⟩
  have h2 : dequeue (⟨[{ sampleTask 1 5 0 "running" (some 1) with updatedAt := 7 },
      sampleTask 2 5 1 "pending" none], 3⟩ : Store) 2 9 =
      (some (sampleTask 2 5 1 "running" (some 2)),
       ⟨[{ sampleTask 1 5 0 "running" (some 1) with updatedAt := 7 },
         { sampleTask 2 5 1 "running" (some 2) with updatedAt := 9 }], 3⟩) := by decide
  exact dequeue_no_double_claim _ 1 2 7 9 _ _ _ _ h1 h2

/-- C2: Dequeue claims a pending task of minimal priority, ties broken by
earliest creation time: no pending task has strictly lower priority than
the returned one, and among equal priorities the returned task's creation
time is the earliest. -/
theorem dequeue_priority_fifo (s : Store) (w : Int) (now : Nat) (t : Task) (s' : Store)
    (hdq : dequeue s w now = (some t, s'))
    (A : Task) (hA : A ∈ s.tasks) (hpend : A.status = "pending") :
    ¬ A.priority < t.priority ∧ (A.priority = t.priority → t.createdAt ≤ A.createdAt) := by
  obtain ⟨t0, hsel, ht, _⟩ := dequeue_some_inv hdq
  have hmin := selectPendingMin_min hsel A hA hpend
  have hpr : t.priority = t0.priority := by rw [ht]
  have hcr : t.createdAt = t0.createdAt := by rw [ht]
  rw [hpr, hcr]
  simp only [keyLtb, Bool.or_eq_false_iff, Bool.and_eq_false_iff, decide_eq_false_iff_not,
    beq_eq_false_iff_ne, ne_eq, beq_iff_eq] at hmin
  constructor
  · exact hmin.1
  · intro hp
    rcases hmin.2 with h | h
    · exact absurd hp h
    · omega

/-- C2 witness: priority 1 beats priority 5, and among two priority-5
tasks the earlier-created one is claimed. -/
theorem dequeue_priority_fifo_witness :
    (¬ (sampleTask 1 5 0 "pending" none).priority <
        (sampleTask 2 1 1 "running" (some 1)).priority ∧
      ((sampleTask 1 5 0 "pending" none).priority =
          (sampleTask 2 1 1 "running" (some 1)).priority →
        (sampleTask 2 1 1 "running" (some 1)).createdAt ≤
          (sampleTask 1 5 0 "pending" none).createdAt)) ∧
    (¬ (sampleTask 4 5 8 "pending" none).priority <
        (sampleTask 3 5 2 "running" (some 1)).priority ∧
      ((sampleTask 4 5 8 "pending" none).priority =
          (sampleTask 3 5 2 "running" (some 1)).priority →
        (sampleTask 3 5 2 "running" (some 1)).createdAt ≤
          (sampleTask 4 5 8 "pending" none).createdAt)) := by
  have h1 : dequeue (⟨[sampleTask 1 5 0 "pending" none, sampleTask 2 1 1 "pending" none],
      3⟩ : Store) 1 7 =
      (some (sampleTask 2 1 1 "running" (some 1)),
       ⟨[sampleTask 1 5 0 "pending" none,
         { sampleTask 2 1 1 "running" (some 1) with updatedAt := 7 }], 3⟩) := by decide
  have h2 : dequeue (⟨[sampleTask 3 5 2 "pending" none, sampleTask 4 5 8 "pending" none],
      5⟩ : Store) 1 7 =
      (some (sampleTask 3 5 2 "running" (some 1)),
       ⟨[{ sampleTask 3 5 2 "running" (some 1) with updatedAt := 7 },
         sampleTask 4 5 8 "pending" none], 5⟩) := by decide
  constructor
  · exact dequeue_priority_fifo _ 1 7 _ _ h1
      (sampleTask 1 5 0 "pending" none) (by decide) rfl
  · exact dequeue_priority_fifo _ 1 7 _ _ h2
      (sampleTask 4 5 8 "pending" none) (by decide) rfl

/-- C4: a storage failure during Dequeue's selection is NOT reported as
an error: the code's `if err != nil` branch after the Scan treats every
error — `ErrNoRows` and genuine driver failures alike — as the
empty-queue result `(nil, nil)`.  Evaluated here at a concrete driver
failure, alongside the genuine empty-queue case it is conflated with. -/
theorem dequeue_storage_failure_swallowed :
    dequeueFrom (.error (.failure "disk I/O error")) ⟨[], 1⟩ 1 0 = .ok (none, ⟨[], 1⟩) ∧
    (SQLError.failure "disk I/O error") ≠ SQLError.errNoRows ∧
    dequeue ⟨[], 1⟩ 1 0 = (none, ⟨[], 1⟩) := by
  exact ⟨rfl, by decide, rfl⟩

/-- A store state in which every pending task carries no assigned-worker
reference (the spec's claimed data-model invariant). -/
def pendingUnassigned (ts : List Task) : Prop :=
  ∀ t ∈ ts, t.status = "pending" → t.workerID = none

/-- C6 counterexample: `Enqueue` writes the caller-supplied `worker_id`
column together with status `'pending'`, so enqueueing a task that
carries a worker reference yields a pending task WITH an assigned worker,
refuting the claim at this concrete input. -/
theorem pending_unassigned_counterexample :
    ¬ (∀ t ∈ (enqueue ⟨[], 1⟩
          { title := "t", prompt := "p", projectID := none, workerID := some 7,
            priority := 0, templateID := none } 0).1.tasks,
        t.status = "pending" → t.workerID = none) := by
  decide

/-- C6 (amended): a task enqueued WITHOUT a worker reference is created
pending with no worker attached, Dequeue records the claiming worker on
the transition to running, and both operations preserve the invariant
that pending tasks enqueued without a worker have none — but Enqueue
preserves a caller-supplied worker reference rather than clearing it. -/
theorem pending_unassigned_amended (s : Store) (inp : TaskInput) (now : Nat) (w : Int)
    (hInv : pendingUnassigned s.tasks) :
    (inp.workerID = none → pendingUnassigned ((enqueue s inp now).1.tasks)) ∧
    pendingUnassigned ((dequeue s w now).2.tasks) ∧
    (∀ t s', dequeue s w now = (some t, s') →
      t.status = "running" ∧ t.workerID = some w) := by
  refine ⟨?_, ?_, ?_⟩
  · intro hnone t ht hpend
    simp only [enqueue, List.mem_append, List.mem_singleton] at ht
    rcases ht with hmem | rfl
    · exact hInv t hmem hpend
    · exact hnone
  · cases hdq : dequeue s w now with
    | mk ot s' =>
      show pendingUnassigned s'.tasks
      cases ot with
      | none =>
        have : s' = s := dequeue_none_inv hdq
        rw [this]
        exact hInv
      | some t =>
        obtain ⟨t0, _, _, hs'⟩ := dequeue_some_inv hdq
        intro u hu hpend
        rw [hs'] at hu
        unfold updateWhere at hu
        obtain ⟨v, hv, hvu⟩ := List.mem_map.mp hu
        by_cases hid : v.id == t0.id
        · rw [if_pos hid] at hvu
          have : u.status = "running" := by rw [← hvu]
          rw [hpend] at this
          exact absurd this.symm (by decide)
        · rw [if_neg hid] at hvu
          exact hInv u (hvu ▸ hv) hpend
  · intro t s' hdq
    obtain ⟨t0, _, ht, _⟩ := dequeue_some_inv hdq
    rw [ht]
    exact ⟨rfl, rfl⟩

/-- C6 witness: the amended statement at a concrete store — enqueueing
without a worker gives a pending unassigned task, and the claimed task
comes back running with the claiming worker recorded. -/
theorem pending_unassigned_amended_witness :
    (pendingUnassigned ((enqueue ⟨[], 1⟩
        { title := "a", prompt := "b", projectID := none, workerID := none,
          priority := 2, templateID := none } 4).1.tasks)) ∧
    ((sampleTask 1 2 4 "running" (some 3)).status = "running" ∧
      (sampleTask 1 2 4 "running" (some 3)).workerID = some 3) := by
  have h := pending_unassigned_amended ⟨[], 1⟩
    { title := "a", prompt := "b", projectID := none, workerID := none,
      priority := 2, templateID := none } 4 3 (by intro t ht; simp at ht)
  refine ⟨h.1 rfl, ?_⟩
  have h2 := pending_unassigned_amended
    (⟨[sampleTask 1 2 4 "pending" none], 2⟩ : Store)
    { title := "a", prompt := "b", projectID := none, workerID := none,
      priority := 2, templateID := none } 9 3
    (by intro t ht hp; rw [List.mem_singleton] at ht; subst ht; rfl)
  exact h2.2.2 (sampleTask 1 2 4 "running" (some 3))
    ⟨[{ sampleTask 1 2 4 "running" (some 3) with updatedAt := 9 }], 2⟩ (by decide)

/-- Go `strings.ToLower` restricted to ASCII case folding; every limiter
keyword is ASCII, where the two agree. -/
def strToLower (s : String) : String := String.mk (s.toList.map Char.toLower)

/-- Go `strings.Contains`: `pat` occurs contiguously inside `s`. -/
def strContainsSub (s pat : String) : Bool :=
  (List.range (s.toList.length + 1)).any fun i => pat.toList.isPrefixOf (s.toList.drop i)

/-- `limiter.patterns["claude"]`. -/
def claudePatterns : List String :=
  ["rate limit", "rate_limit", "too many requests", "429", "overloaded"]

/-- `limiter.patterns["gemini"]`. -/
def geminiPatterns : List String :=
  ["quota exceeded", "rate limit", "429", "resource exhausted"]

/-- `limiter.patterns["browser"]`. -/
def browserPatterns : List String :=
  ["timeout", "connection refused"]

/-- The `limiter.patterns` map: keyword lists per CLI type, absent keys
yield Go's nil. -/
def patterns (cliType : String) : Option (List String) :=
  if cliType = "claude" then some claudePatterns
  else if cliType = "gemini" then some geminiPatterns
  else if cliType = "browser" then some browserPatterns
  else none

/-- `limiter.Detector`. -/
structure Detector where
  cliType : String
  keywords : List String
deriving Repr, DecidableEq

/-- `limiter.New`: keyword set for the CLI type, falling back to the
claude list when the type is unknown (`kws == nil`). -/
def Detector.new (cliType : String) : Detector :=
  { cliType := cliType, keywords := (patterns cliType).getD claudePatterns }

/-- `Detector.DetectLimit`: case-insensitive substring containment of any
keyword in the lowered line. -/
def DetectLimit (d : Detector) (line : String) : Bool :=
  let lower := strToLower line
  d.keywords.any fun kw => strContainsSub lower kw

/-- `tokenizer.EstimateTokens`: byte length of the text divided by 4. -/
def EstimateTokens (text : String) : Nat := text.utf8ByteSize / 4

/-- The loop state of `worker.runCLI`'s scanner loop: the collected
output lines, the throttle flag and matched line, plus the trace of
`SaveCheckpoint(output, progress)` calls the loop issued. -/
structure LoopAcc where
  outputLines : List String
  hitLimit : Bool
  rateLimitLine : String
  checkpoints : List (String × Nat)
deriving Repr, DecidableEq

/-- The loop state before the first line is read. -/
def initAcc : LoopAcc :=
  { outputLines := [], hitLimit := false, rateLimitLine := "", checkpoints := [] }

/-- One iteration of `worker.runCLI`'s scanner loop: append the line,
test it with the detector, and — when the 60-second checkpoint interval
has elapsed (`due`) — flush `strings.Join(outputLines, "\n")` with
progress `len(outputLines)` to the queue. -/
def stepLine (det : Detector) (due : Bool) (acc : LoopAcc) (line : String) : LoopAcc :=
  let outputLines := acc.outputLines ++ [line]
  let hit := DetectLimit det line
  { outputLines := outputLines
    hitLimit := acc.hitLimit || hit
    rateLimitLine := if hit then line else acc.rateLimitLine
    checkpoints :=
      if due then acc.checkpoints ++ [(String.intercalate "\n" outputLines, outputLines.length)]
      else acc.checkpoints }

/-- The whole scanner loop over the streamed lines.  `due k` models
whether `time.Since(lastCheckpoint) >= 60*time.Second` held when the
line with index `k` was processed. -/
def runStream (det : Detector) (due : Nat → Bool) : List String → LoopAcc → LoopAcc
  | [], acc => acc
  | line :: rest, acc => runStream det due rest (stepLine det (due acc.outputLines.length) acc line)

/-- The observable outcome of `worker.runCLI`: the updated store, whether
the rate-limit alert (WS broadcast + `task.limit` notification) was
raised, and whether `ErrRateLimit` was returned. -/
structure RunResult where
  store : Store
  alertRaised : Bool
  rateLimited : Bool
deriving Repr, DecidableEq

/-- `worker.runCLI` after the subprocess start: stream the lines through
the detector, apply the periodic checkpoints, then either checkpoint the
full output and transition to `limit` with an alert (throttled path), or
estimate tokens and `MarkDone` (success path).  The float expression
`int(float64(inputEst) * 0.6)` is modelled as exact `* 6 / 10`
arithmetic; no theorem below depends on its value. -/
def runCLI (s : Store) (taskID : Nat) (cliType : String) (due : Nat → Bool)
    (lines : List String) (now : Nat) : RunResult :=
  let det := Detector.new cliType
  let acc := runStream det due lines initAcc
  let s1 := acc.checkpoints.foldl (fun st cp => saveCheckpoint st taskID cp.1 (Int.ofNat cp.2) now) s
  let fullOutput := String.intercalate "\n" acc.outputLines
  if acc.hitLimit then
    let s2 := saveCheckpoint s1 taskID fullOutput (Int.ofNat acc.outputLines.length) now
    let s3 := updateStatus s2 taskID "limit" now
    { store := s3, alertRaised := true, rateLimited := true }
  else
    let inputEst := EstimateTokens fullOutput
    let outputEst := inputEst * 6 / 10
    { store := markDone s1 taskID fullOutput "" (Int.ofNat inputEst) (Int.ofNat outputEst) now,
      alertRaised := false, rateLimited := false }

theorem find?_updateWhere (ts : List Task) (taskID : Nat) (f : Task → Task)
    (hf : ∀ u, (f u).id = u.id) :
    (updateWhere ts taskID f).find? (fun u => u.id == taskID) =
      (ts.find? fun u => u.id == taskID).map f := by
  induction ts with
  | nil => rfl
  | cons x rest ih =>
    unfold updateWhere at *
    by_cases hx : x.id == taskID
    · rw [List.map_cons, if_pos hx]
      have hfx : ((f x).id == taskID) = true := by rw [hf]; exact hx
      simp only [List.find?_cons, hfx, hx]
      rfl
    · rw [List.map_cons, if_neg hx]
      simp only [List.find?_cons, hx, cond_false]
      exact ih

theorem getTask_saveCheckpoint (s : Store) (taskID : Nat) (out : String) (p : Int) (now : Nat) :
    getTask (saveCheckpoint s taskID out p now) taskID =
      (getTask s taskID).map
        fun u => { u with checkpointData := out, progress := p, updatedAt := now } := by
  unfold getTask saveCheckpoint
  exact find?_updateWhere s.tasks taskID _ (fun u => rfl)

theorem getTask_updateStatus (s : Store) (taskID : Nat) (st : String) (now : Nat) :
    getTask (updateStatus s taskID st now) taskID =
      (getTask s taskID).map fun u => { u with status := st, updatedAt := now } := by
  unfold getTask updateStatus
  exact find?_updateWhere s.tasks taskID _ (fun u => rfl)

theorem getTask_markDone (s : Store) (taskID : Nat) (out diff : String) (it ot : Int)
    (now : Nat) :
    getTask (markDone s taskID out diff it ot now) taskID =
      (getTask s taskID).map
        fun u => { u with status := "done", output := out, diff := diff, inputTokens := it,
                          outputTokens := ot, progress := 100, updatedAt := now } := by
  unfold getTask markDone
  exact find?_updateWhere s.tasks taskID _ (fun u => rfl)

theorem getTask_foldl_save (taskID : Nat) (now : Nat) :
    ∀ (cps : List (String × Nat)) (s : Store), (getTask s taskID).isSome →
      (getTask (cps.foldl (fun st cp => saveCheckpoint st taskID cp.1 (Int.ofNat cp.2) now) s)
        taskID).isSome := by
  intro cps
  induction cps with
  | nil => intro s h; exact h
  | cons cp rest ih =>
    intro s h
    rw [List.foldl_cons]
    apply ih
    rw [getTask_saveCheckpoint]
    simpa using h

theorem runStream_outputLines (det : Detector) (due : Nat → Bool) :
    ∀ (lines : List String) (acc : LoopAcc),
      (runStream det due lines acc).outputLines = acc.outputLines ++ lines := by
  intro lines
  induction lines with
  | nil => intro acc; simp [runStream]
  | cons line rest ih =>
    intro acc
    rw [runStream, ih]
    simp [stepLine]

theorem runStream_hitLimit (det : Detector) (due : Nat → Bool) :
    ∀ (lines : List String) (acc : LoopAcc),
      (runStream det due lines acc).hitLimit = (acc.hitLimit || lines.any (DetectLimit det)) := by
  intro lines
  induction lines with
  | nil => intro acc; simp [runStream]
  | cons line rest ih =>
    intro acc
    rw [runStream, ih]
    simp [stepLine, Bool.or_assoc, Bool.or_comm]

theorem runStream_checkpoints (det : Detector) (due : Nat → Bool) :
    ∀ (lines : List String) (acc : LoopAcc),
      ∀ cp ∈ (runStream det due lines acc).checkpoints,
        cp ∈ acc.checkpoints ∨
        ∃ m, 1 ≤ m ∧ m ≤ lines.length ∧
          cp = (String.intercalate "\n" (acc.outputLines ++ lines.take m),
                acc.outputLines.length + m) := by
  intro lines
  induction lines with
  | nil => intro acc cp hcp; exact Or.inl hcp
  | cons line rest ih =>
    intro acc cp hcp
    rw [runStream] at hcp
    rcases ih _ cp hcp with hin | ⟨m, hm1, hm2, hcp'⟩
    · simp only [stepLine] at hin
      split at hin
      · rcases List.mem_append.mp hin with h | h
        · exact Or.inl h
        · rw [List.mem_singleton] at h
          refine Or.inr ⟨1, le_refl 1, by simp, ?_⟩
          rw [h]
          simp
      · exact Or.inl hin
    · refine Or.inr ⟨m + 1, by omega, by simp; omega, ?_⟩
      rw [hcp']
      simp only [stepLine, Prod.mk.injEq]
      refine ⟨?_, by simp; omega⟩
      rw [List.take_succ_cons]
      simp [List.append_assoc]

/-- C3: if any streamed output line matches the adapter's limiter
keywords, the task ends in status `limit` (not `failed`), its checkpoint
field equals all output captured before termination, and the rate-limit
alert is raised. -/
theorem throttled_ends_in_limit (s : Store) (taskID : Nat) (cliType : String)
    (due : Nat → Bool) (lines : List String) (now : Nat)
    (hhit : lines.any (DetectLimit (Detector.new cliType)) = true)
    (hex : (getTask s taskID).isSome) :
    (runCLI s taskID cliType due lines now).alertRaised = true ∧
    (runCLI s taskID cliType due lines now).rateLimited = true ∧
    ∃ t', getTask (runCLI s taskID cliType due lines now).store taskID = some t' ∧
      t'.status = "limit" ∧ t'.status ≠ "failed" ∧
      t'.checkpointData = String.intercalate "\n" lines := by
  have hacc : (runStream (Detector.new cliType) due lines initAcc).hitLimit = true := by
    rw [runStream_hitLimit]
    simpa [initAcc] using hhit
  have hout : (runStream (Detector.new cliType) due lines initAcc).outputLines = lines := by
    rw [runStream_outputLines]
    simp [initAcc]
  simp only [runCLI]
  rw [if_pos hacc]
  refine ⟨rfl, rfl, ?_⟩
  have h1 := getTask_foldl_save taskID now
    ((runStream (Detector.new cliType) due lines initAcc).checkpoints) s hex
  obtain ⟨u, hu⟩ := Option.isSome_iff_exists.mp h1
  simp only [RunResult.store]
  rw [getTask_updateStatus, getTask_saveCheckpoint, hu]
  simp only [Option.map_some']
  refine ⟨_, rfl, rfl, ?_, ?_⟩
  · show ("limit" : String) ≠ "failed"
    decide
  · show String.intercalate "\n" (runStream (Detector.new cliType) due lines initAcc).outputLines
      = String.intercalate "\n" lines
    rw [hout]

/-- C3 witness: a run whose output contains the line
"429 Too Many Requests" raises the alert and returns the rate-limit
error (its task ends in `limit` with the full output checkpointed). -/
theorem throttled_ends_in_limit_witness :
    ((runCLI ⟨[sampleTask 1 5 0 "running" (some 1)], 2⟩ 1 "claude" (fun _ => false)
        ["echo", "429 Too Many Requests"] 9).alertRaised = true) ∧
    ((runCLI ⟨[sampleTask 1 5 0 "running" (some 1)], 2⟩ 1 "claude" (fun _ => false)
        ["echo", "429 Too Many Requests"] 9).rateLimited = true) := by
  have h := throttled_ends_in_limit ⟨[sampleTask 1 5 0 "running" (some 1)], 2⟩ 1 "claude"
    (fun _ => false) ["echo", "429 Too Many Requests"] 9 (by decide) (by decide)
  exact ⟨h.1, h.2.1⟩

/-- C10: every periodic checkpoint flushed by the scanner loop stores
progress equal to the number of output lines collected so far — a line
count, not a percentage; on the throttled path the final stored progress
equals the total line count, exceeding 100 whenever more than 100 lines
were produced, while on the success path MarkDone resets progress to
100. -/
theorem checkpoint_progress_is_line_count (s : Store) (taskID : Nat) (cliType : String)
    (due : Nat → Bool) (lines : List String) (now : Nat)
    (hex : (getTask s taskID).isSome) :
    (∀ cp ∈ (runStream (Detector.new cliType) due lines initAcc).checkpoints,
      ∃ k, 1 ≤ k ∧ k ≤ lines.length ∧
        cp = (String.intercalate "\n" (lines.take k), k)) ∧
    (lines.any (DetectLimit (Detector.new cliType)) = true →
      ∃ t', getTask (runCLI s taskID cliType due lines now).store taskID = some t' ∧
        t'.progress = Int.ofNat lines.length ∧
        (100 < lines.length → 100 < t'.progress)) ∧
    (lines.any (DetectLimit (Detector.new cliType)) = false →
      ∃ t', getTask (runCLI s taskID cliType due lines now).store taskID = some t' ∧
        t'.progress = 100) := by
  have hout : (runStream (Detector.new cliType) due lines initAcc).outputLines = lines := by
    rw [runStream_outputLines]
    simp [initAcc]
  refine ⟨?_, ?_, ?_⟩
  · intro cp hcp
    rcases runStream_checkpoints (Detector.new cliType) due lines initAcc cp hcp with
      hin | ⟨m, hm1, hm2, hcp'⟩
    · simp [initAcc] at hin
    · exact ⟨m, hm1, hm2, by simpa [initAcc] using hcp'⟩
  · intro hhit
    have hacc : (runStream (Detector.new cliType) due lines initAcc).hitLimit = true := by
      rw [runStream_hitLimit]
      simpa [initAcc] using hhit
    simp only [runCLI]
    rw [if_pos hacc]
    have h1 := getTask_foldl_save taskID now
      ((runStream (Detector.new cliType) due lines initAcc).checkpoints) s hex
    obtain ⟨u, hu⟩ := Option.isSome_iff_exists.mp h1
    simp only [RunResult.store]
    rw [getTask_updateStatus, getTask_saveCheckpoint, hu]
    simp only [Option.map_some']
    refine ⟨_, rfl, ?_, ?_⟩
    · show Int.ofNat (runStream (Detector.new cliType) due lines initAcc).outputLines.length
        = Int.ofNat lines.length
      rw [hout]
    · intro hlen
      have : (100 : Int) <
          Int.ofNat (runStream (Detector.new cliType) due lines initAcc).outputLines.length := by
        rw [hout]
        show (100 : Int) < (lines.length : Int)
        exact_mod_cast hlen
      exact this
  · intro hmiss
    have hacc : (runStream (Detector.new cliType) due lines initAcc).hitLimit = false := by
      rw [runStream_hitLimit]
      simpa [initAcc] using hmiss
    simp only [runCLI]
    rw [if_neg (by rw [hacc]; simp)]
    have h1 := getTask_foldl_save taskID now
      ((runStream (Detector.new cliType) due lines initAcc).checkpoints) s hex
    obtain ⟨u, hu⟩ := Option.isSome_iff_exists.mp h1
    simp only [RunResult.store]
    rw [getTask_markDone, hu]
    simp only [Option.map_some']
    exact ⟨_, rfl, rfl⟩

/-- C10 witness: a clean two-line run ends with MarkDone's progress 100
stored on the task. -/
theorem checkpoint_progress_is_line_count_witness :
    (getTask (runCLI ⟨[sampleTask 1 5 0 "running" (some 1)], 2⟩ 1 "claude" (fun _ => true)
        ["alpha", "beta"] 9).store 1).map Task.progress = some 100 := by
  have h := checkpoint_progress_is_line_count ⟨[sampleTask 1 5 0 "running" (some 1)], 2⟩ 1
    "claude" (fun _ => true) ["alpha", "beta"] 9 (by decide)
  obtain ⟨t', hg, hp⟩ := h.2.2 (by decide)
  rw [hg]
  simp [hp]

/-- `tokenizer.BudgetZone`: the iota-ordered enumeration
GREEN(0) < YELLOW(1) < ORANGE(2) < RED(3). -/
inductive BudgetZone where
  | ZoneGreen
  | ZoneYellow
  | ZoneOrange
  | ZoneRed
deriving Repr, DecidableEq

open BudgetZone

/-- The integer value the Go `iota` constant declaration gives each zone;
Go compares zones with `<=` on these values. -/
def BudgetZone.val : BudgetZone → Nat
  | ZoneGreen => 0
  | ZoneYellow => 1
  | ZoneOrange => 2
  | ZoneRed => 3

/-- The threshold switch of `governor.GetBudgetZone` given today's summed
usage and a budget row `(daily_limit, yellow_pct, orange_pct, red_pct)`:
GREEN when the limit is zero, otherwise the integer percentage
`(used * 100) / dailyLimit` compared against the three thresholds. -/
def zoneOfUsage (used dailyLimit yellowPct orangePct redPct : Nat) : BudgetZone :=
  if dailyLimit = 0 then ZoneGreen
  else
    let pct := used * 100 / dailyLimit
    if redPct ≤ pct then ZoneRed
    else if orangePct ≤ pct then ZoneOrange
    else if yellowPct ≤ pct then ZoneYellow
    else ZoneGreen

/-- `governor.GetBudgetZone`: `used` is today's
COALESCE(SUM(input_tokens + output_tokens), 0) for the worker; the
budget row is the worker's `token_budgets` row when configured, else the
defaults 1000000/60/80/90. -/
def GetBudgetZone (used : Nat) (budget : Option (Nat × Nat × Nat × Nat)) : BudgetZone :=
  match budget with
  | some (dailyLimit, yellowPct, orangePct, redPct) =>
      zoneOfUsage used dailyLimit yellowPct orangePct redPct
  | none => zoneOfUsage used 1000000 60 80 90

/-- The Governor's `lastZone` map (Go `map[int]BudgetZone`): lookup
returns `(prev, known)`. -/
def lookupZone (m : List (Nat × BudgetZone)) (w : Nat) : Option BudgetZone :=
  (m.find? fun p => p.1 == w).map Prod.snd

/-- Go map assignment `g.lastZone[workerID] = zone`: overwrite the
existing key or append a new binding. -/
def insertZone (m : List (Nat × BudgetZone)) (w : Nat) (z : BudgetZone) :
    List (Nat × BudgetZone) :=
  if m.any (fun p => p.1 == w) then m.map (fun p => if p.1 == w then (w, z) else p)
  else m ++ [(w, z)]

/-- The Telegram alert `governor.CheckBudget`'s switch sends per zone;
the switch has no GREEN case, so GREEN sends nothing. -/
def alertFor (workerID : Nat) (zone : BudgetZone) : Option String :=
  match zone with
  | ZoneYellow => some ("⚠️ Worker " ++ toString workerID ++
      " token budget at YELLOW (60%+). Compressing context.")
  | ZoneOrange => some ("🟠 Worker " ++ toString workerID ++
      " token budget at ORANGE (80%+). Reducing context heavily.")
  | ZoneRed => some ("🔴 Worker " ++ toString workerID ++
      " token budget at RED (90%+). Running minimum context only!")
  | ZoneGreen => none

/-- `governor.CheckBudget` given the zone just computed by
`GetBudgetZone`: read the previous zone, record the new zone, and return
early (no alert) when the worker was known and `zone <= prev`. -/
def CheckBudget (lastZone : List (Nat × BudgetZone)) (workerID : Nat) (zone : BudgetZone) :
    List (Nat × BudgetZone) × Option String :=
  let prev := lookupZone lastZone workerID
  let m := insertZone lastZone workerID zone
  match prev with
  | some p => if zone.val ≤ p.val then (m, none) else (m, alertFor workerID zone)
  | none => (m, alertFor workerID zone)

/-- C7: for a worker with a last observed zone, CheckBudget raises an
alert exactly when the computed zone is strictly greater than that zone —
never on de-escalation and never on repeated checks in the same zone. -/
theorem checkBudget_alert_iff_escalation (m : List (Nat × BudgetZone)) (w : Nat)
    (zone prev : BudgetZone) (hknown : lookupZone m w = some prev) :
    ((CheckBudget m w zone).2 ≠ none ↔ prev.val < zone.val) := by
  unfold CheckBudget
  rw [hknown]
  cases zone <;> cases prev <;> simp [alertFor, BudgetZone.val]

/-- C7 witness: YELLOW→RED alerts (escalation); RED→YELLOW and
YELLOW→YELLOW do not. -/
theorem checkBudget_alert_iff_escalation_witness :
    ((CheckBudget [(1, ZoneYellow)] 1 ZoneRed).2 ≠ none ↔
      BudgetZone.val ZoneYellow < BudgetZone.val ZoneRed) ∧
    ((CheckBudget [(1, ZoneRed)] 1 ZoneYellow).2 ≠ none ↔
      BudgetZone.val ZoneRed < BudgetZone.val ZoneYellow) ∧
    ((CheckBudget [(1, ZoneYellow)] 1 ZoneYellow).2 ≠ none ↔
      BudgetZone.val ZoneYellow < BudgetZone.val ZoneYellow) := by
  refine ⟨?_, ?_, ?_⟩
  · exact checkBudget_alert_iff_escalation [(1, ZoneYellow)] 1 ZoneRed ZoneYellow rfl
  · exact checkBudget_alert_iff_escalation [(1, ZoneRed)] 1 ZoneYellow ZoneRed rfl
  · exact checkBudget_alert_iff_escalation [(1, ZoneYellow)] 1 ZoneYellow ZoneYellow rfl

theorem zoneOfUsage_thresholds (used L y o r : Nat) (hL : 0 < L) :
    zoneOfUsage used L y o r =
      (if r * L ≤ used * 100 then ZoneRed
       else if o * L ≤ used * 100 then ZoneOrange
       else if y * L ≤ used * 100 then ZoneYellow
       else ZoneGreen) := by
  unfold zoneOfUsage
  rw [if_neg (Nat.pos_iff_ne_zero.mp hL)]
  simp only [Nat.le_div_iff_mul_le hL]

/-- C8: with the default thresholds 60/80/90 and a positive daily limit,
usage whose percentage lands exactly on a threshold yields that
threshold's zone, and one token less yields the zone beneath — at all
three boundaries. -/
theorem budget_zone_boundaries (L u v w : Nat) (hL : 0 < L) :
    (u * 100 = 60 * L →
      GetBudgetZone u (some (L, 60, 80, 90)) = ZoneYellow ∧
      GetBudgetZone (u - 1) (some (L, 60, 80, 90)) = ZoneGreen) ∧
    (v * 100 = 80 * L →
      GetBudgetZone v (some (L, 60, 80, 90)) = ZoneOrange ∧
      GetBudgetZone (v - 1) (some (L, 60, 80, 90)) = ZoneYellow) ∧
    (w * 100 = 90 * L →
      GetBudgetZone w (some (L, 60, 80, 90)) = ZoneRed ∧
      GetBudgetZone (w - 1) (some (L, 60, 80, 90)) = ZoneOrange) := by
  simp only [GetBudgetZone]
  refine ⟨?_, ?_, ?_⟩ <;> intro hexact <;>
    rw [zoneOfUsage_thresholds _ _ _ _ _ hL, zoneOfUsage_thresholds _ _ _ _ _ hL] <;>
    constructor <;> split_ifs <;> first | rfl | omega

/-- C8 witness: with the default limit 1,000,000 — usage 600,000 is
exactly 60% and yields YELLOW; 599,999 yields GREEN. -/
theorem budget_zone_boundaries_witness :
    GetBudgetZone 600000 (some (1000000, 60, 80, 90)) = ZoneYellow ∧
    GetBudgetZone 599999 (some (1000000, 60, 80, 90)) = ZoneGreen := by
  exact (budget_zone_boundaries 1000000 600000 0 0 (by decide)).1 (by decide)

/-- `tokenizer.CompressSummary`: truncate to about `maxTokens * 4`
characters, trimming back to the last sentence boundary when one lies
past the halfway point, and append the compression marker.  Go indexes
bytes; this model indexes characters — the two agree on ASCII text. -/
def lastIndexAny (cs : List Char) (chars : List Char) : Option Nat :=
  ((List.range cs.length).filter fun i => (cs.getD i ' ') ∈ chars).getLast?

def CompressSummary (text : String) (maxTokens : Nat) : String :=
  let maxChars := maxTokens * 4
  if text.toList.length ≤ maxChars then text
  else
    let truncated := text.toList.take maxChars
    let truncated :=
      match lastIndexAny truncated ['.', '!', '?', '\n'] with
      | some idx => if maxChars / 2 < idx then truncated.take (idx + 1) else truncated
      | none => truncated
    String.mk truncated ++ "\n\n[... context compressed for token budget ...]"

/-- `tokenizer.OptimizeContext`: zone-dependent compression. -/
def OptimizeContext (ctx : String) (zone : BudgetZone) : String :=
  match zone with
  | ZoneGreen => ctx
  | ZoneYellow => CompressSummary ctx 2000
  | ZoneOrange => CompressSummary ctx 800
  | ZoneRed => CompressSummary ctx 300

/-- The character directory contents behind `character.Loader`: the text
`readFile` returns for each fixed file ("" when the file is missing, as
in the source) and the skills/ directory's `.md` entries in listing
order, keyed by base name. -/
structure Loader where
  identity : String
  thinking : String
  rules : String
  memory : String
  skills : List (String × String)
deriving Repr, DecidableEq

def Loader.LoadIdentity (l : Loader) : String := l.identity

def Loader.LoadThinking (l : Loader) : String := l.thinking

def Loader.LoadRules (l : Loader) : String := l.rules

def Loader.LoadMemory (l : Loader) : String := l.memory

/-- `character.sanitizeName`: keep only ASCII alphanumerics, dash and
underscore. -/
def sanitizeName (name : String) : String :=
  String.mk (name.toList.filter fun r =>
    ('a' ≤ r && r ≤ 'z') || ('A' ≤ r && r ≤ 'Z') || ('0' ≤ r && r ≤ '9') || r == '-' || r == '_')

/-- `Loader.LoadSkill`: empty name or fully-sanitized-away name yields
""; otherwise read skills/<safe>.md ("" when absent). -/
def Loader.LoadSkill (l : Loader) (name : String) : String :=
  if name = "" then ""
  else
    let safe := sanitizeName name
    if safe = "" then ""
    else ((l.skills.find? fun p => p.1 == safe).map Prod.snd).getD ""

/-- `Loader.ListSkills`: the `.md` file names of the skills directory. -/
def Loader.ListSkills (l : Loader) : List String := l.skills.map fun p => p.1 ++ ".md"

/-- Go `strings.TrimSuffix(s, ".md")`. -/
def trimSuffixMD (s : String) : String := if s.endsWith ".md" then s.dropRight 3 else s

/-- The `keywordMap` literal of `Loader.AutoSelectSkill`; the map is only
looked up by key, so Go's random map iteration order is irrelevant. -/
def keywordMap (name : String) : Option (List String) :=
  if name = "laravel-developer" then some ["laravel", "php", "eloquent", "artisan", "blade"]
  else if name = "flutter-developer" then some ["flutter", "dart", "widget", "pub.dev"]
  else if name = "wordpress" then some ["wordpress", "wp", "plugin", "shortcode", "woocommerce"]
  else if name = "bug-fixer" then some ["bug", "fix", "error", "crash", "exception", "debug"]
  else if name = "code-reviewer" then
    some ["review", "code review", "pull request", "pr", "feedback"]
  else if name = "seo-writer" then some ["seo", "meta", "keyword", "content", "article", "blog"]
  else if name = "devops" then some ["docker", "kubernetes", "ci/cd", "nginx", "deploy", "pipeline"]
  else if name = "playwright-tester" then
    some ["playwright", "test", "e2e", "automation", "selenium", "puppeteer"]
  else none

/-- The skill-file scan of `Loader.AutoSelectSkill`: first listed skill
whose keyword set has a member contained in the lowered prompt. -/
def autoSelectGo (lower : String) : List String → String
  | [] => ""
  | name :: rest =>
    match keywordMap name with
    | some kws =>
        if kws.any (fun kw => strContainsSub lower kw) then name else autoSelectGo lower rest
    | none => autoSelectGo lower rest

def Loader.AutoSelectSkill (l : Loader) (prompt : String) : String :=
  autoSelectGo (strToLower prompt) (l.ListSkills.map trimSuffixMD)

/-- `character.BuildOpts`. -/
structure BuildOpts where
  zone : BudgetZone
  skillName : String
  projectCLAUDEMD : String
  projectMemory : String
  checkpoint : String
  prompt : String
deriving Repr, DecidableEq

/-- The `add` closure of `Injector.BuildContext`: skip empty content,
otherwise append "# LABEL\n\ncontent" to the parts. -/
def addSection (parts : List String) (label content : String) : List String :=
  if content = "" then parts else parts ++ ["# " ++ label ++ "\n\n" ++ content]

/-- `Injector.BuildContext`: the nine-step assembly in source order,
sections joined with "\n\n---\n\n". -/
def BuildContext (l : Loader) (opts : BuildOpts) : String :=
  let zone := opts.zone
  let parts : List String := []
  let parts := addSection parts "IDENTITY"
    (if ZoneYellow.val ≤ zone.val then OptimizeContext l.LoadIdentity zone else l.LoadIdentity)
  let parts := addSection parts "THINKING"
    (if ZoneYellow.val ≤ zone.val then OptimizeContext l.LoadThinking zone else l.LoadThinking)
  let parts := addSection parts "RULES" l.LoadRules
  let parts :=
    if zone.val < ZoneOrange.val then
      (if l.LoadMemory ≠ "" then addSection parts "MEMORY" (OptimizeContext l.LoadMemory zone)
       else parts)
    else parts
  let skillName :=
    if opts.skillName = "" ∧ opts.prompt ≠ "" then l.AutoSelectSkill opts.prompt
    else opts.skillName
  let parts := if skillName ≠ "" then addSection parts "SKILL" (l.LoadSkill skillName) else parts
  let parts :=
    if opts.projectCLAUDEMD ≠ "" ∧ zone.val < ZoneRed.val then
      addSection parts "PROJECT INSTRUCTIONS" opts.projectCLAUDEMD
    else parts
  let parts :=
    if opts.projectMemory ≠ "" ∧ zone.val < ZoneOrange.val then
      addSection parts "PROJECT MEMORY" opts.projectMemory
    else parts
  let parts :=
    if opts.checkpoint ≠ "" then addSection parts "CHECKPOINT (resuming from)" opts.checkpoint
    else parts
  let parts := if opts.prompt ≠ "" then parts ++ ["# TASK\n\n" ++ opts.prompt] else parts
  String.intercalate "\n\n---\n\n" parts

/-- One optional rendered section: `none` when dropped or empty. -/
def sec (label content : String) : Option String :=
  if content = "" then none else some ("# " ++ label ++ "\n\n" ++ content)

/-- Spec side: the nine context sections in the specified fixed order —
identity, reasoning-approach, rules, memory, skill, project
instructions, project memory, checkpoint, task prompt — each `none`
when its zone policy drops it or it is empty.  The RULES entry and the
task-prompt entry are rendered from the raw text whatever the zone. -/
def nineSections (l : Loader) (opts : BuildOpts) : List (Option String) :=
  let zone := opts.zone
  let skillName :=
    if opts.skillName = "" ∧ opts.prompt ≠ "" then l.AutoSelectSkill opts.prompt
    else opts.skillName
  [ sec "IDENTITY"
      (if ZoneYellow.val ≤ zone.val then OptimizeContext l.LoadIdentity zone else l.LoadIdentity),
    sec "THINKING"
      (if ZoneYellow.val ≤ zone.val then OptimizeContext l.LoadThinking zone else l.LoadThinking),
    sec "RULES" l.LoadRules,
    if zone.val < ZoneOrange.val then
      (if l.LoadMemory ≠ "" then sec "MEMORY" (OptimizeContext l.LoadMemory zone) else none)
    else none,
    if skillName ≠ "" then sec "SKILL" (l.LoadSkill skillName) else none,
    if opts.projectCLAUDEMD ≠ "" ∧ zone.val < ZoneRed.val then
      sec "PROJECT INSTRUCTIONS" opts.projectCLAUDEMD
    else none,
    if opts.projectMemory ≠ "" ∧ zone.val < ZoneOrange.val then
      sec "PROJECT MEMORY" opts.projectMemory
    else none,
    if opts.checkpoint ≠ "" then sec "CHECKPOINT (resuming from)" opts.checkpoint else none,
    if opts.prompt ≠ "" then some ("# TASK\n\n" ++ opts.prompt) else none ]

theorem addSection_eq (parts : List String) (label content : String) :
    addSection parts label content = parts ++ (sec label content).toList := by
  unfold addSection sec
  split <;> simp

theorem if_append (P : Prop) [Decidable P] (parts chunk : List String) :
    (if P then parts ++ chunk else parts) = parts ++ (if P then chunk else []) := by
  split <;> simp

theorem toList_if (P : Prop) [Decidable P] (o : Option String) :
    (if P then o else none).toList = if P then o.toList else [] := by
  split <;> rfl

theorem filterMap_id_cons (o : Option String) (rest : List (Option String)) :
    (o :: rest).filterMap id = o.toList ++ rest.filterMap id := by
  cases o <;> simp

/-- C9: BuildContext emits exactly the nine sections in the fixed order
joined by the single separator "\n\n---\n\n", and for every zone
(including RED) the rules section and the literal task prompt appear
uncompressed and undropped whenever their text is non-empty. -/
theorem buildContext_nine_sections (l : Loader) (opts : BuildOpts) :
    BuildContext l opts =
      String.intercalate "\n\n---\n\n" ((nineSections l opts).filterMap id) ∧
    (l.LoadRules ≠ "" → "# RULES\n\n" ++ l.LoadRules ∈ (nineSections l opts).filterMap id) ∧
    (opts.prompt ≠ "" → "# TASK\n\n" ++ opts.prompt ∈ (nineSections l opts).filterMap id) := by
  refine ⟨?_, ?_, ?_⟩
  · simp only [BuildContext, nineSections, addSection_eq, if_append, filterMap_id_cons,
      toList_if, List.filterMap_nil, List.append_nil, List.nil_append, Option.toList_some]
    simp only [List.append_assoc]
  · intro hr
    apply List.mem_filterMap.mpr
    refine ⟨some ("# RULES\n\n" ++ l.LoadRules), ?_, rfl⟩
    have h3 : sec "RULES" l.LoadRules = some ("# RULES\n\n" ++ l.LoadRules) := by
      unfold sec
      rw [if_neg hr]
      rfl
    rw [← h3]
    simp [nineSections]
  · intro hp
    apply List.mem_filterMap.mpr
    refine ⟨some ("# TASK\n\n" ++ opts.prompt), ?_, rfl⟩
    have h9 : (if opts.prompt ≠ "" then some ("# TASK\n\n" ++ opts.prompt) else none) =
        some ("# TASK\n\n" ++ opts.prompt) := if_pos hp
    rw [← h9]
    simp [nineSections]

/-- C9 witness: at zone RED with non-empty rules and a non-empty prompt,
the raw rules section and the raw task prompt both appear among the
emitted sections. -/
theorem buildContext_nine_sections_witness :
    (Loader.LoadRules ⟨"id", "think", "be careful", "mem", []⟩ ≠ "" ∧
      "# RULES\n\n" ++ Loader.LoadRules ⟨"id", "think", "be careful", "mem", []⟩ ∈
        ((nineSections ⟨"id", "think", "be careful", "mem", []⟩
          ⟨ZoneRed, "", "", "", "", "do the task"⟩).filterMap id)) ∧
    (("do the task" : String) ≠ "" ∧
      "# TASK\n\n" ++ "do the task" ∈
        ((nineSections ⟨"id", "think", "be careful", "mem", []⟩
          ⟨ZoneRed, "", "", "", "", "do the task"⟩).filterMap id)) := by
  have h := buildContext_nine_sections ⟨"id", "think", "be careful", "mem", []⟩
    ⟨ZoneRed, "", "", "", "", "do the task"⟩
  exact ⟨⟨by decide, h.2.1 (by decide)⟩, ⟨by decide, h.2.2 (by decide)⟩⟩

/-- `db.Worker` as the Pool consumes it: the identifier and the
parallelism slots the StartAll loop iterates over. -/
structure DBWorker where
  id : Nat
  name : String
  maxParallel : Nat
deriving Repr, DecidableEq

/-- The Pool's cancellation bookkeeping: `cancels` is Go's
`map[int]context.CancelFunc` keyed by WORKER id (each unit's cancel
function represented by a distinct token), `units` records every
launched goroutine with its private cancel token, `nextToken` numbers
the tokens in launch order. -/
structure PoolState where
  cancels : List (Nat × Nat)
  units : List (Nat × Nat)
  nextToken : Nat
deriving Repr, DecidableEq

/-- Go map assignment `p.cancels[dbWorker.ID] = cancel`: overwrite the
existing key or add a new binding. -/
def insertCancel (m : List (Nat × Nat)) (k v : Nat) : List (Nat × Nat) :=
  if m.any (fun p => p.1 == k) then m.map (fun p => if p.1 == k then (k, v) else p)
  else m ++ [(k, v)]

/-- `Pool.startOne`: derive a fresh cancellable context for the unit,
store its cancel function in the worker-keyed map, and launch the
goroutine. -/
def startOne (st : PoolState) (w : DBWorker) : PoolState :=
  { cancels := insertCancel st.cancels w.id st.nextToken
    units := st.units ++ [(w.id, st.nextToken)]
    nextToken := st.nextToken + 1 }

/-- `Pool.StartAll`: `for i := 0; i < dbWorker.MaxParallel; i++
{ p.startOne(ctx, dbWorker) }` over all provided workers. -/
def StartAll (st : PoolState) (workers : List DBWorker) : PoolState :=
  workers.foldl (fun st w => (List.range w.maxParallel).foldl (fun st _ => startOne st w) st) st

/-- The cancel functions `Pool.StopAll` invokes: every value still
present in the cancels map. -/
def stopAllSignalled (st : PoolState) : List Nat := st.cancels.map Prod.snd

/-- The pool state `NewPool` creates. -/
def initPool : PoolState := { cancels := [], units := [], nextToken := 0 }

/-- C5: with one worker configured with parallelism 2, StartAll launches
two units (cancel tokens 0 and 1), but because the cancels map is keyed
by worker id the second `startOne` overwrites the first unit's cancel
function; StopAll therefore signals cancellation only to unit 1 and
unit 0 is never cancelled — refuting the claim at this concrete input
(StopAll's `wg.Wait()` then blocks on the uncancelled unit). -/
theorem stopAll_misses_unit :
    (StartAll initPool [⟨1, "w", 2⟩]).units = [(1, 0), (1, 1)] ∧
    stopAllSignalled (StartAll initPool [⟨1, "w", 2⟩]) = [1] ∧
    ¬ (∀ u ∈ (StartAll initPool [⟨1, "w", 2⟩]).units,
        u.2 ∈ stopAllSignalled (StartAll initPool [⟨1, "w", 2⟩])) := by
  decide

end ClawDaemon
